import Mathlib

/-!
Verification of the cluster-based recommendation pipeline in
`src/prediction.py` (with the build-time concatenation from
`src/dataset_preparation/feature_selector.py`).

Modelling conventions:
* numpy float vectors are modelled exactly as `List ℚ`;
* `np.linalg.norm(a - b)` is the square root of `sqDist a b`; every
  comparison the source performs on such norms is monotone in the squared
  distance, so distances are carried as exact squared distances and the
  real-valued similarity `1 / (1 + sqrt d)` appears only in theorem
  statements (as a function of the squared distance);
* Python dicts are modelled as association lists in insertion order
  (`json.load` preserves the key order of the file, and dict iteration
  follows insertion order);
* Python's stable `list.sort` is modelled by `List.insertionSort`, which
  is also stable; a stable sort's output is determined by the key order
  together with stability, so the two agree.
-/

namespace MusicRec

/-- Feature vectors: numpy float arrays modelled over the rationals. -/
abbrev Vec := List ℚ

/-- Squared Euclidean distance between two vectors.
The source computes `np.linalg.norm(feature_vec - centroid)`; that norm is
`Real.sqrt (sqDist _ _)`. -/
def sqDist (a b : Vec) : ℚ :=
  (List.zipWith (fun x y => (x - y) * (x - y)) a b).sum

/-- One entry of `features_reduced.json`: `song_id → {"features": [...], "cluster": int}`.
The `features` key is accessed defensively in the fallback
(`if "features" in song_data`), hence `Option`; the `cluster` key is always
present (written unconditionally by `feature_selector.py`). -/
structure FREntry where
  sid : String
  features : Option Vec
  cluster : Int
deriving DecidableEq

/-- One value of `metadata.json`, keyed by `song_id`.
`title` and `perma_url` are read with direct indexing (required keys; the
`perma_url` value itself may be JSON `null`, hence `Option String`); the
remaining keys are read with `.get` and a default. -/
structure Meta where
  title : String
  album : Option String
  year : Option String
  language : Option String
  duration : Option ℚ
  perma_url : Option String
  image_url : Option String
deriving DecidableEq

/-- One element of the `top_songs` list built in `prediction.py` lines 186-199. -/
structure RecEntry where
  song_id : String
  title : String
  album : String
  year : String
  language : String
  duration : ℚ
  perma_url : Option String
  image_url : String
deriving DecidableEq

/-- `combine_features` (prediction.py lines 119-121):
`np.hstack([librosa_feat, yamnet_feat_reduced, [instrument_feat], [duration_feat]])`.
The source performs no length check of any kind. -/
def combine_features (librosa_feat yamnet_feat_reduced : Vec)
    (instrument_feat duration_feat : ℚ) : Vec :=
  librosa_feat ++ yamnet_feat_reduced ++ [instrument_feat] ++ [duration_feat]

/-- Length of the librosa block produced by `extract_librosa`
(prediction.py lines 72-86): 13 mfcc means + 13 mfcc stds + 12 chroma means
+ 5 scalars + 7 spectral-contrast means. -/
def librosaLen : Nat := 50

/-- Length of the PCA-reduced YAMNet block: `PCA(n_components=64)` in
`feature_selector.py` line 30. -/
def yamnetReducedLen : Nat := 64

/-- Total schema length of a reduced feature vector:
librosa block + reduced embedding block + instrument score + duration. -/
def schemaLen : Nat := 116

/-- Loop body of `assign_cluster` (prediction.py lines 123-131).
`best = none` models the initial `min_dist = float("inf")`: the first
centroid's finite distance always satisfies `dist < inf`, so it is always
accepted.  Comparisons are carried on squared distances; `d1 < d2` over
norms iff it holds over squared norms, since `Real.sqrt` is strictly
monotone on nonnegative arguments. -/
def assignClusterGo (v : Vec) : List (Int × Vec) → Option ℚ → Int → Int
  | [], _, assigned => assigned
  | (lbl, c) :: rest, none, _ => assignClusterGo v rest (some (sqDist v c)) lbl
  | (lbl, c) :: rest, some m, assigned =>
    if sqDist v c < m then assignClusterGo v rest (some (sqDist v c)) lbl
    else assignClusterGo v rest (some m) assigned

/-- `assign_cluster` (prediction.py lines 123-131): nearest-centroid label,
iterating `cluster_centroids.items()` in insertion order, starting from
`assigned = -1`. -/
def assign_cluster (centroids : List (Int × Vec)) (v : Vec) : Int :=
  assignClusterGo v centroids none (-1)

/-- The `cluster_to_song_ids` mapping (prediction.py lines 41-43), read back
through `.get(label, [])`: the song ids of all `features_reduced` entries
whose `cluster` field equals the label, in catalogue insertion order.
A label that no entry carries yields `[]` (the dict has no such key). -/
def cluster_to_song_ids (fr : List FREntry) (lbl : Int) : List String :=
  (fr.filter (fun e => e.cluster = lbl)).map (fun e => e.sid)

/-- The `similarities` list of the fallback (prediction.py lines 174-179),
carrying exact squared distances in place of the float similarity
`1.0 / (1.0 + np.linalg.norm(final_vec - song_features))`: the similarity
is the strictly decreasing image `1 / (1 + Real.sqrt d2)` of the squared
distance `d2` recorded here.  Entries lacking a `features` key are skipped
by the source's `if "features" in song_data` guard. -/
def similarities (v : Vec) (fr : List FREntry) : List (String × ℚ) :=
  fr.filterMap (fun e => e.features.map (fun fv => (e.sid, sqDist v fv)))

/-- Ordering used to model `similarities.sort(key=lambda x: x[1], reverse=True)`:
sorting by float similarity descending (stable) orders pairs by squared
distance ascending (stable), because the similarity is a strictly
decreasing function of the squared distance. -/
def simLE (a b : String × ℚ) : Prop := a.2 ≤ b.2

instance : DecidableRel simLE := fun a b => inferInstanceAs (Decidable (a.2 ≤ b.2))

instance : IsTotal (String × ℚ) simLE := ⟨fun a b => le_total a.2 b.2⟩

instance : IsTrans (String × ℚ) simLE := ⟨fun _ _ _ h1 h2 => le_trans h1 h2⟩

/-- The in-place `similarities.sort(key=lambda x: x[1], reverse=True)`
(prediction.py line 182), modelled by a stable insertion sort on
ascending squared distance. -/
def sortBySim (l : List (String × ℚ)) : List (String × ℚ) :=
  l.insertionSort simLE

/-- The fallback candidate list (prediction.py line 183):
`[sid for sid, _ in similarities[:10]]` after the sort. -/
def fallback_candidates (v : Vec) (fr : List FREntry) : List String :=
  ((sortBySim (similarities v fr)).take 10).map Prod.fst

/-- One recommendation record as assembled in prediction.py lines 190-199. -/
def mkRecEntry (sid : String) (m : Meta) : RecEntry :=
  { song_id := sid
    title := m.title
    album := m.album.getD ""
    year := m.year.getD ""
    language := m.language.getD ""
    duration := m.duration.getD 0
    perma_url := m.perma_url
    image_url := m.image_url.getD "" }

/-- The `top_songs` loop (prediction.py lines 186-199):
`for sid in candidate_song_ids[:10]: if sid in song_id_to_meta: append(...)`.
Candidates absent from the metadata dict are skipped silently; there is no
de-duplication of any kind. -/
def top_songs (candidates : List String) (meta : List (String × Meta)) : List RecEntry :=
  (candidates.take 10).filterMap (fun sid => (meta.lookup sid).map (mkRecEntry sid))

/-- The per-file result record written into `predictions` (prediction.py
lines 201-206). -/
structure Prediction where
  cluster_id : Int
  total_candidates : Nat
  recommendations : List RecEntry
  method : String
deriving DecidableEq

/-- The per-file pipeline segment after feature extraction (prediction.py
lines 163-206): cluster assignment, candidate collection with similarity
fallback, ranking, and result assembly. -/
def predictionEntry (v : Vec) (centroids : List (Int × Vec)) (fr : List FREntry)
    (meta : List (String × Meta)) : Prediction :=
  let cluster_id := assign_cluster centroids v
  let members := cluster_to_song_ids fr cluster_id
  let candidate_song_ids := if members.isEmpty then fallback_candidates v fr else members
  { cluster_id := cluster_id
    total_candidates := candidate_song_ids.length
    recommendations := top_songs candidate_song_ids meta
    method := if (cluster_to_song_ids fr cluster_id).isEmpty then "similarity" else "cluster" }

/-- Per-song row of the build-time concatenation in `feature_selector.py`
line 34: `np.hstack([librosa_feats, yamnet_reduced, instrument_feats, duration_feats])`
restricted to one row. -/
def final_features_row (librosa_row yamnet_reduced_row instr_row duration_row : Vec) : Vec :=
  librosa_row ++ yamnet_reduced_row ++ instr_row ++ duration_row

/-- Row of `instrument_feats` (feature_selector.py lines 20-21):
`[instr_val[0]] if instr_val else [0.0]`. -/
def instrument_row (instr_vals : List ℚ) : Vec :=
  match instr_vals with
  | [] => [0]
  | x :: _ => [x]

/-- `top_instrument_score` (prediction.py line 113):
`list(instruments.values())[0] if instruments else 0.0`. -/
def top_instrument_score (instr_vals : List ℚ) : ℚ :=
  match instr_vals with
  | [] => 0
  | x :: _ => x

/- Batteries marks Rat.add, Rat.sub and Rat.mul irreducible; unseal them so
that concrete pipeline runs can be evaluated by `decide`. -/
attribute [local semireducible] Rat.add Rat.sub Rat.mul

/-- C9: with an empty centroid set the loop body of `assign_cluster` never
runs, so the initial value `-1` (the noise label) is returned and the
request proceeds down the similarity-fallback path. -/
theorem assign_cluster_empty_centroids (v : Vec) : assign_cluster [] v = -1 := rfl

/-- C8: when the fallback runs over an empty catalogue
(`features_reduced` has no entries) the pipeline returns normally with an
empty recommendation list and `total_candidates = 0`; no exception is
raised (the model is a total function and every branch is defined). -/
theorem empty_catalogue_empty_result (v : Vec) (centroids : List (Int × Vec))
    (meta : List (String × Meta)) :
    predictionEntry v centroids [] meta =
      { cluster_id := assign_cluster centroids v
        total_candidates := 0
        recommendations := []
        method := "similarity" } := rfl

/-- C7: the query-time fusion `combine_features` concatenates
`librosa_block ++ embedding_block_reduced ++ [instrument_score] ++ [duration]`,
and this is exactly the per-row order of the build-time
`np.hstack([librosa_feats, yamnet_reduced, instrument_feats, duration_feats])`
in `feature_selector.py`, including the shared first-value-or-zero
instrument convention. -/
theorem feature_order_match (lib yamRed : Vec) (instr_vals : List ℚ) (dur : ℚ) :
    combine_features lib yamRed (top_instrument_score instr_vals) dur =
      final_features_row lib yamRed (instrument_row instr_vals) [dur] := by
  cases instr_vals <;> rfl

/-- C3 counterexample: `combine_features` raises nothing on a wrong-length
sub-block.  With a librosa block of length 1 (schema length is 50) it
returns normally, producing a vector of length 67 ≠ 116: the claimed
`SchemaError` does not exist in the source, and a wrong-length vector is
produced silently. -/
theorem combine_features_silent_wrong_length :
    (combine_features (List.replicate 1 (0 : ℚ))
        (List.replicate yamnetReducedLen 0) 0 0).length = 67
    ∧ 67 ≠ schemaLen := by decide

/-- C3 amended: `combine_features` performs no validation and cannot fail;
it always returns the concatenation, whose length is
`|librosa| + |yamnet_reduced| + 2`, and that length equals the schema
total 116 exactly when the two variable sub-blocks sum to 114. -/
theorem combine_features_length (lib yam : Vec) (i d : ℚ) :
    (combine_features lib yam i d).length = lib.length + yam.length + 2
    ∧ ((combine_features lib yam i d).length = schemaLen
        ↔ lib.length + yam.length = 114) := by
  have h : (combine_features lib yam i d).length = lib.length + yam.length + 2 := by
    simp only [combine_features, List.length_append, List.length_cons, List.length_nil]
  refine ⟨h, ?_⟩
  rw [h]
  simp only [schemaLen]
  omega

/-- Helper: the song ids emitted by `top_songs` are exactly the first-ten
candidates that resolve in the metadata lookup, in order. -/
theorem top_songs_map_song_id (candidates : List String) (meta : List (String × Meta)) :
    (top_songs candidates meta).map (fun r => r.song_id) =
      (candidates.take 10).filter (fun sid => (meta.lookup sid).isSome) := by
  unfold top_songs
  generalize candidates.take 10 = l
  induction l with
  | nil => rfl
  | cons x xs ih =>
    simp only [List.filterMap_cons, List.filter_cons]
    cases h : meta.lookup x with
    | none => simpa [h] using ih
    | some m => simp [h, mkRecEntry, ih]

/-- C5: the reported `method` is `"cluster"` exactly when the assigned
cluster's member list is non-empty, and `"similarity"` exactly when it is
empty (including unknown and noise labels, which have no members). -/
theorem prediction_method_iff (v : Vec) (centroids : List (Int × Vec))
    (fr : List FREntry) (meta : List (String × Meta)) :
    ((predictionEntry v centroids fr meta).method = "cluster"
      ↔ cluster_to_song_ids fr (assign_cluster centroids v) ≠ [])
    ∧ ((predictionEntry v centroids fr meta).method = "similarity"
      ↔ cluster_to_song_ids fr (assign_cluster centroids v) = []) := by
  by_cases h : cluster_to_song_ids fr (assign_cluster centroids v) = [] <;>
    simp [predictionEntry, h, List.isEmpty_iff]

/-- Catalogue fragment for the C1 counterexample: two distinct songs that
share one canonical URL. -/
def dupMeta : Meta :=
  { title := "T", album := none, year := none, language := none,
    duration := none, perma_url := some "https://x/y", image_url := none }

/-- Two features_reduced entries in cluster 0, for the C1 counterexample. -/
def dupFR : List FREntry :=
  [{ sid := "a", features := some [0], cluster := 0 },
   { sid := "b", features := some [0], cluster := 0 }]

/-- Metadata table for the C1 counterexample. -/
def dupMetaList : List (String × Meta) := [("a", dupMeta), ("b", dupMeta)]

/-- C1 counterexample: the ranked output CAN contain two entries with the
same non-null canonical URL.  With two catalogue songs sharing
`perma_url = "https://x/y"`, both in the assigned cluster, the pipeline
emits both; no URL-based de-duplication happens anywhere in the source. -/
theorem ranked_output_repeats_url :
    ((predictionEntry [0] [(0, [0])] dupFR dupMetaList).recommendations.map
        (fun r => r.perma_url)) = [some "https://x/y", some "https://x/y"] := by
  decide

/-- C1 amended: the ranker performs no URL-based de-duplication at all.
Every candidate among the first ten that resolves in the metadata lookup is
emitted, regardless of whether its `perma_url` duplicates an earlier
entry's; a candidate is skipped only when it is absent from the metadata
lookup. -/
theorem top_songs_no_url_dedup (candidates : List String) (meta : List (String × Meta)) :
    (top_songs candidates meta).map (fun r => r.song_id) =
      (candidates.take 10).filter (fun sid => (meta.lookup sid).isSome) :=
  top_songs_map_song_id candidates meta

/-- C10: every emitted entry's `song_id` resolves in the metadata lookup;
the output length is the number of metadata-resolvable ids among the first
ten candidates, so ids absent from the lookup are skipped silently; and
(concrete instance) the output can be strictly shorter than
`min limit total_candidates` with no error reported. -/
theorem top_songs_skips_unknown_ids (candidates : List String) (meta : List (String × Meta)) :
    ((top_songs candidates meta).all (fun r => (meta.lookup r.song_id).isSome) = true)
    ∧ (top_songs candidates meta).length =
        ((candidates.take 10).filter (fun sid => (meta.lookup sid).isSome)).length
    ∧ (top_songs ["z"] ([] : List (String × Meta))).length < min 10 (["z"].length) := by
  refine ⟨?_, ?_, by decide⟩
  · simp only [List.all_eq_true]
    intro r hr
    unfold top_songs at hr
    obtain ⟨sid, hmem, hmap⟩ := List.mem_filterMap.mp hr
    cases h : meta.lookup sid with
    | none => rw [h] at hmap; cases hmap
    | some m =>
      rw [h] at hmap
      simp only [Option.map_some'] at hmap
      cases hmap
      simp [mkRecEntry, h]
  · have := top_songs_map_song_id candidates meta
    calc (top_songs candidates meta).length
        = ((top_songs candidates meta).map (fun r => r.song_id)).length := by
          rw [List.length_map]
      _ = ((candidates.take 10).filter (fun sid => (meta.lookup sid).isSome)).length := by
          rw [this]

/-- Eleven catalogue entries, all in cluster 0, for the C2 counterexample. -/
def elevenFR : List FREntry :=
  ["s01", "s02", "s03", "s04", "s05", "s06", "s07", "s08", "s09", "s10", "s11"].map
    (fun s => { sid := s, features := some [0], cluster := 0 })

/-- C2 counterexample: on the fallback path `total_candidates` is computed
AFTER the top-10 truncation.  With eleven catalogue songs scored and an
empty assigned cluster, the code reports `total_candidates = 10`, not the
pre-truncation pool size 11 that the claim requires. -/
theorem total_candidates_truncated_cex :
    (predictionEntry [0] [] elevenFR []).total_candidates = 10
    ∧ (similarities [0] elevenFR).length = 11
    ∧ (predictionEntry [0] [] elevenFR []).method = "similarity" := by
  decide

/-- C2 amended: on the cluster path `total_candidates` is the full member
count of the assigned cluster (pre-truncation), but on the fallback path it
is `min 10 (number of catalogue songs scored)` — the size of the candidate
list after taking the top ten, not the pre-truncation pool size. -/
theorem total_candidates_eq (v : Vec) (centroids : List (Int × Vec))
    (fr : List FREntry) (meta : List (String × Meta)) :
    (predictionEntry v centroids fr meta).total_candidates =
      if cluster_to_song_ids fr (assign_cluster centroids v) = []
      then min 10 (similarities v fr).length
      else (cluster_to_song_ids fr (assign_cluster centroids v)).length := by
  by_cases h : cluster_to_song_ids fr (assign_cluster centroids v) = []
  · simp [predictionEntry, h, fallback_candidates, sortBySim, List.length_take,
      (List.perm_insertionSort simLE (similarities v fr)).length_eq]
  · simp [predictionEntry, h, List.isEmpty_iff]

/-- Helper for C4: characterization of the `assign_cluster` loop from an
intermediate state `(min_dist = m, assigned = a)`: either no remaining
centroid beats `m` and the accumulator is returned, or the result is a
remaining centroid that beats `m`, has minimal distance among the
remainder, and strictly beats every remaining centroid listed before it. -/
theorem assignClusterGo_spec (v : Vec) (cs : List (Int × Vec)) :
    ∀ (m : ℚ) (a : Int),
      (assignClusterGo v cs (some m) a = a ∧ ∀ p ∈ cs, m ≤ sqDist v p.2)
      ∨ ∃ i, ∃ hi : i < cs.length,
          assignClusterGo v cs (some m) a = (cs.get ⟨i, hi⟩).1
          ∧ sqDist v (cs.get ⟨i, hi⟩).2 < m
          ∧ (∀ p ∈ cs, sqDist v (cs.get ⟨i, hi⟩).2 ≤ sqDist v p.2)
          ∧ (∀ j, ∀ hj : j < cs.length, j < i →
              sqDist v (cs.get ⟨i, hi⟩).2 < sqDist v (cs.get ⟨j, hj⟩).2) := by
  induction cs with
  | nil =>
    intro m a
    exact Or.inl ⟨rfl, by intro p hp; cases hp⟩
  | cons hd rest ih =>
    intro m a
    obtain ⟨lbl, c⟩ := hd
    by_cases hc : sqDist v c < m
    · have hgo : assignClusterGo v ((lbl, c) :: rest) (some m) a
          = assignClusterGo v rest (some (sqDist v c)) lbl := by
        simp only [assignClusterGo]
        rw [if_pos hc]
      rcases ih (sqDist v c) lbl with ⟨heq, hall⟩ | ⟨i, hi, heq, hlt, hmin, hstrict⟩
      · refine Or.inr ⟨0, Nat.succ_pos _, ?_, hc, ?_, ?_⟩
        · rw [hgo, heq]; rfl
        · intro p hp
          rcases List.mem_cons.mp hp with rfl | hp
          · exact le_refl _
          · exact hall p hp
        · intro j hj hj0
          omega
      · refine Or.inr ⟨i + 1, Nat.succ_lt_succ hi, ?_, ?_, ?_, ?_⟩
        · rw [hgo, heq]; rfl
        · exact lt_trans hlt hc
        · intro p hp
          rcases List.mem_cons.mp hp with rfl | hp
          · exact le_of_lt hlt
          · exact hmin p hp
        · intro j hj hjlt
          cases j with
          | zero => exact hlt
          | succ j' =>
            exact hstrict j' (Nat.lt_of_succ_lt_succ hj) (Nat.lt_of_succ_lt_succ hjlt)
    · have hm : m ≤ sqDist v c := le_of_not_lt hc
      have hgo : assignClusterGo v ((lbl, c) :: rest) (some m) a
          = assignClusterGo v rest (some m) a := by
        simp only [assignClusterGo]
        rw [if_neg hc]
      rcases ih m a with ⟨heq, hall⟩ | ⟨i, hi, heq, hlt, hmin, hstrict⟩
      · refine Or.inl ⟨by rw [hgo, heq], ?_⟩
        intro p hp
        rcases List.mem_cons.mp hp with rfl | hp
        · exact hm
        · exact hall p hp
      · refine Or.inr ⟨i + 1, Nat.succ_lt_succ hi, ?_, hlt, ?_, ?_⟩
        · rw [hgo, heq]; rfl
        · intro p hp
          rcases List.mem_cons.mp hp with rfl | hp
          · exact le_of_lt (lt_of_lt_of_le hlt hm)
          · exact hmin p hp
        · intro j hj hjlt
          cases j with
          | zero => exact lt_of_lt_of_le hlt hm
          | succ j' =>
            exact hstrict j' (Nat.lt_of_succ_lt_succ hj) (Nat.lt_of_succ_lt_succ hjlt)

/-- C4 counterexample: ties do NOT go to the lowest numeric label.  The
centroid dict is iterated in insertion order, so with centroids
`{5: [1], 2: [-1]}` (in that file order) and query `[0]`, both centroids
are at squared distance 1, yet the code keeps the first-iterated label 5,
not the lowest label 2 the claim requires. -/
theorem assign_cluster_tie_not_lowest_label :
    sqDist [0] [1] = sqDist [0] [-1]
    ∧ assign_cluster [(5, [1]), (2, [-1])] [0] = 5
    ∧ assign_cluster [(5, [1]), (2, [-1])] [0] ≠ 2 := by decide

/-- C4 amended: for a non-empty centroid list, `assign_cluster` returns the
label of a centroid of minimum Euclidean distance (stated via squared
distance, an order isomorphism), and on ties the winner is the label
occurring EARLIEST in the centroid iteration (dict insertion) order — not
the lowest numeric label: every earlier-listed centroid is at strictly
greater distance. -/
theorem assign_cluster_first_argmin (centroids : List (Int × Vec)) (v : Vec)
    (h : centroids ≠ []) :
    ∃ i, ∃ hi : i < centroids.length,
      (centroids.get ⟨i, hi⟩).1 = assign_cluster centroids v
      ∧ (∀ p ∈ centroids, sqDist v (centroids.get ⟨i, hi⟩).2 ≤ sqDist v p.2)
      ∧ ∀ j, ∀ hj : j < centroids.length, j < i →
          sqDist v (centroids.get ⟨i, hi⟩).2 < sqDist v (centroids.get ⟨j, hj⟩).2 := by
  cases centroids with
  | nil => exact absurd rfl h
  | cons hd rest =>
    obtain ⟨lbl, c⟩ := hd
    have hgo : assign_cluster ((lbl, c) :: rest) v
        = assignClusterGo v rest (some (sqDist v c)) lbl := rfl
    rcases assignClusterGo_spec v rest (sqDist v c) lbl with
      ⟨heq, hall⟩ | ⟨i, hi, heq, hlt, hmin, hstrict⟩
    · refine ⟨0, Nat.succ_pos _, ?_, ?_, ?_⟩
      · rw [hgo, heq]; rfl
      · intro p hp
        rcases List.mem_cons.mp hp with rfl | hp
        · exact le_refl _
        · exact hall p hp
      · intro j hj hj0
        omega
    · refine ⟨i + 1, Nat.succ_lt_succ hi, ?_, ?_, ?_⟩
      · rw [hgo, heq]; rfl
      · intro p hp
        rcases List.mem_cons.mp hp with rfl | hp
        · exact le_of_lt hlt
        · exact hmin p hp
      · intro j hj hjlt
        cases j with
        | zero => exact hlt
        | succ j' =>
          exact hstrict j' (Nat.lt_of_succ_lt_succ hj) (Nat.lt_of_succ_lt_succ hjlt)

/-- C4 witness: the amended claim instantiated at the counterexample's
centroid list and query vector, with the non-emptiness hypothesis
discharged concretely. -/
theorem assign_cluster_first_argmin_witness :
    ∃ i, ∃ hi : i < ([((5 : Int), [(1 : ℚ)]), (2, [-1])]).length,
      (([((5 : Int), [(1 : ℚ)]), (2, [-1])]).get ⟨i, hi⟩).1
          = assign_cluster [((5 : Int), [(1 : ℚ)]), (2, [-1])] [0]
      ∧ (∀ p ∈ [((5 : Int), [(1 : ℚ)]), (2, [-1])],
          sqDist [0] (([((5 : Int), [(1 : ℚ)]), (2, [-1])]).get ⟨i, hi⟩).2 ≤ sqDist [0] p.2)
      ∧ ∀ j, ∀ hj : j < ([((5 : Int), [(1 : ℚ)]), (2, [-1])]).length, j < i →
          sqDist [0] (([((5 : Int), [(1 : ℚ)]), (2, [-1])]).get ⟨i, hi⟩).2
            < sqDist [0] (([((5 : Int), [(1 : ℚ)]), (2, [-1])]).get ⟨j, hj⟩).2 :=
  assign_cluster_first_argmin [((5 : Int), [(1 : ℚ)]), (2, [-1])] [0] (by decide)

/-- Squared distances are nonnegative. -/
theorem sqDist_nonneg (a : Vec) : ∀ b : Vec, 0 ≤ sqDist a b := by
  induction a with
  | nil => intro b; simp [sqDist]
  | cons x xs ih =>
    intro b
    cases b with
    | nil => simp [sqDist]
    | cons y ys =>
      have h1 : 0 ≤ (x - y) * (x - y) := mul_self_nonneg _
      have h2 : 0 ≤ sqDist xs ys := ih ys
      simpa [sqDist] using add_nonneg h1 h2

/-- For equal-length vectors the squared distance vanishes exactly on equal
vectors. -/
theorem sqDist_eq_zero_iff (a : Vec) :
    ∀ b : Vec, a.length = b.length → (sqDist a b = 0 ↔ a = b) := by
  induction a with
  | nil =>
    intro b h
    cases b with
    | nil => simp [sqDist]
    | cons y ys => simp at h
  | cons x xs ih =>
    intro b h
    cases b with
    | nil => simp at h
    | cons y ys =>
      have hlen : xs.length = ys.length := by simpa using h
      have hx : 0 ≤ (x - y) * (x - y) := mul_self_nonneg _
      have hs : 0 ≤ sqDist xs ys := sqDist_nonneg xs ys
      have hsq : sqDist (x :: xs) (y :: ys) = (x - y) * (x - y) + sqDist xs ys := by
        simp [sqDist]
      constructor
      · intro h0
        rw [hsq] at h0
        have h1 : (x - y) * (x - y) = 0 := by linarith
        have h2 : sqDist xs ys = 0 := by linarith
        have hxy : x = y := sub_eq_zero.mp (mul_self_eq_zero.mp h1)
        have hrest : xs = ys := (ih ys hlen).mp h2
        rw [hxy, hrest]
      · intro hEq
        injection hEq with hxy hrest
        rw [hsq, hxy, sub_self, mul_zero, zero_add]
        exact (ih ys hlen).mpr hrest

/-- Stability of one insertion step, phrased through `filter` at a fixed
key: the elements the insertion passes over all have strictly smaller key,
so the inserted element lands before every equal-key element. -/
theorem filter_orderedInsert (c : ℚ) (x : String × ℚ) (l : List (String × ℚ)) :
    (l.orderedInsert simLE x).filter (fun p => p.2 = c) =
      if x.2 = c then x :: l.filter (fun p => p.2 = c)
      else l.filter (fun p => p.2 = c) := by
  induction l with
  | nil => simp [List.orderedInsert, List.filter_cons]
  | cons y ys ih =>
    by_cases hxy : simLE x y
    · rw [List.orderedInsert, if_pos hxy]
      by_cases hxc : x.2 = c <;> simp [List.filter_cons, hxc]
    · rw [List.orderedInsert, if_neg hxy]
      have hy : y.2 < x.2 := lt_of_not_le hxy
      by_cases hxc : x.2 = c
      · have hyc : ¬(y.2 = c) := by
          rw [← hxc]
          exact ne_of_lt hy
        simp [List.filter_cons, hyc, ih, hxc]
      · by_cases hyc : y.2 = c <;> simp [List.filter_cons, hyc, ih, hxc]

/-- Stability of the modelled sort: at every fixed key the sorted list
preserves the original (catalogue iteration) order of the tied elements. -/
theorem filter_sortBySim (c : ℚ) (l : List (String × ℚ)) :
    (sortBySim l).filter (fun p => p.2 = c) = l.filter (fun p => p.2 = c) := by
  induction l with
  | nil => rfl
  | cons x xs ih =>
    have hs : sortBySim (x :: xs) = (sortBySim xs).orderedInsert simLE x := rfl
    rw [hs, filter_orderedInsert]
    by_cases hxc : x.2 = c <;> simp [List.filter_cons, hxc, ih]

/-- The real-valued similarity `1 / (1 + sqrt d)` is positive for every
squared distance. -/
theorem simVal_pos (x : ℝ) : 0 < 1 / (1 + Real.sqrt x) := by
  have h := Real.sqrt_nonneg x
  have h1 : (0 : ℝ) < 1 + Real.sqrt x := by linarith
  exact one_div_pos.mpr h1

/-- The real-valued similarity is at most 1. -/
theorem simVal_le_one (x : ℝ) : 1 / (1 + Real.sqrt x) ≤ 1 := by
  have h := Real.sqrt_nonneg x
  have h1 : (0 : ℝ) < 1 + Real.sqrt x := by linarith
  rw [div_le_one h1]
  linarith

/-- The similarity is antitone in the squared distance. -/
theorem simVal_antitone {a b : ℝ} (hab : a ≤ b) :
    1 / (1 + Real.sqrt b) ≤ 1 / (1 + Real.sqrt a) := by
  have ha := Real.sqrt_nonneg a
  have h1 : (0 : ℝ) < 1 + Real.sqrt a := by linarith
  have hs : Real.sqrt a ≤ Real.sqrt b := Real.sqrt_le_sqrt hab
  exact one_div_le_one_div_of_le h1 (by linarith)

/-- For a nonnegative squared distance the similarity is 1 exactly at
distance zero. -/
theorem simVal_eq_one_iff {d2 : ℚ} (hd : 0 ≤ d2) :
    1 / (1 + Real.sqrt (d2 : ℝ)) = 1 ↔ d2 = 0 := by
  have h := Real.sqrt_nonneg (d2 : ℝ)
  have h1 : (0 : ℝ) < 1 + Real.sqrt (d2 : ℝ) := by linarith
  rw [div_eq_one_iff_eq (ne_of_gt h1)]
  constructor
  · intro hEq
    have hs : Real.sqrt (d2 : ℝ) = 0 := by linarith
    have hd0 : (d2 : ℝ) = 0 := by
      have hcast : (0 : ℝ) ≤ (d2 : ℝ) := by exact_mod_cast hd
      have := Real.sqrt_eq_zero hcast
      exact this.mp hs
    exact_mod_cast hd0
  · intro h0
    rw [h0]
    simp

/-- C6: the similarity fallback scores every catalogue song carrying a
feature vector with similarity `1 / (1 + dist)`, a value in `(0, 1]` that
equals 1 exactly on a vector identical to the query (for matching lengths);
the scored list is sorted descending by that similarity with ties kept in
catalogue iteration order (stability stated via `filter` at any fixed
distance), and at most ten song ids are returned. -/
theorem similarity_fallback_spec (v : Vec) (fr : List FREntry) (e : FREntry)
    (fv : Vec) (c : ℚ)
    (he : e ∈ fr) (hf : e.features = some fv) (hlen : fv.length = v.length) :
    (fallback_candidates v fr).length ≤ 10
    ∧ (e.sid, sqDist v fv) ∈ similarities v fr
    ∧ 0 < 1 / (1 + Real.sqrt ((sqDist v fv : ℚ) : ℝ))
    ∧ 1 / (1 + Real.sqrt ((sqDist v fv : ℚ) : ℝ)) ≤ 1
    ∧ (1 / (1 + Real.sqrt ((sqDist v fv : ℚ) : ℝ)) = 1 ↔ fv = v)
    ∧ List.Pairwise
        (fun a b => 1 / (1 + Real.sqrt ((b.2 : ℚ) : ℝ))
          ≤ 1 / (1 + Real.sqrt ((a.2 : ℚ) : ℝ)))
        (sortBySim (similarities v fr))
    ∧ (sortBySim (similarities v fr)).filter (fun p => p.2 = c)
        = (similarities v fr).filter (fun p => p.2 = c) := by
  refine ⟨?_, ?_, simVal_pos _, simVal_le_one _, ?_, ?_, filter_sortBySim c _⟩
  · rw [fallback_candidates, List.length_map, List.length_take]
    exact min_le_left _ _
  · exact List.mem_filterMap.mpr ⟨e, he, by rw [hf]; rfl⟩
  · rw [simVal_eq_one_iff (sqDist_nonneg v fv)]
    rw [sqDist_eq_zero_iff v fv hlen.symm]
    exact comm
  · have hsorted : List.Sorted simLE (sortBySim (similarities v fr)) :=
      List.sorted_insertionSort simLE (similarities v fr)
    exact hsorted.imp (fun hab => simVal_antitone (by exact_mod_cast hab))

/-- C6 witness: the fallback specification instantiated at a one-song
catalogue whose feature vector matches the query exactly, with every
hypothesis discharged concretely. -/
theorem similarity_fallback_spec_witness :
    (fallback_candidates [1] [⟨"a", some [1], 0⟩]).length ≤ 10
    ∧ (("a" : String), sqDist [1] [1]) ∈ similarities [1] [⟨"a", some [1], 0⟩]
    ∧ 0 < 1 / (1 + Real.sqrt ((sqDist [1] [1] : ℚ) : ℝ))
    ∧ 1 / (1 + Real.sqrt ((sqDist [1] [1] : ℚ) : ℝ)) ≤ 1
    ∧ (1 / (1 + Real.sqrt ((sqDist [1] [1] : ℚ) : ℝ)) = 1 ↔ [(1 : ℚ)] = [1])
    ∧ List.Pairwise
        (fun a b => 1 / (1 + Real.sqrt ((b.2 : ℚ) : ℝ))
          ≤ 1 / (1 + Real.sqrt ((a.2 : ℚ) : ℝ)))
        (sortBySim (similarities [1] [⟨"a", some [1], 0⟩]))
    ∧ (sortBySim (similarities [1] [⟨"a", some [1], 0⟩])).filter (fun p => p.2 = 0)
        = (similarities [1] [⟨"a", some [1], 0⟩]).filter (fun p => p.2 = 0) :=
  similarity_fallback_spec [1] [⟨"a", some [1], 0⟩] ⟨"a", some [1], 0⟩ [1] 0
    (by decide) rfl rfl

end MusicRec
